import Mathlib

/-!
Shallow embedding of the requirement-resolution and manifest-editing core of
the `uv` project-management commands (`uv add`, `uv init --from-project`,
`uv tool install`), covering:

* `crates/uv/src/commands/project/add.rs` (the `add` orchestration),
* `crates/uv/src/commands/project/init.rs` (the `init_project` orchestration,
  in particular the `--from-project` import flow and workspace-member join),
* `crates/uv/src/commands/tool/install.rs` (the tool-install front checks).

Pure data (requirements, sources, URLs, markers) is embedded as inductive
types; the filesystem / lock / sync stages are embedded as explicit effect
lists produced by the orchestration functions, with the outcome of the
external `do_lock` / `do_sync` collaborators passed in as parameters.
Helper functions that live in crates outside the surveyed sources
(`Source::from_requirement`, `simplify_extras`, the credential-store
primitives, `process_project_and_sync`) are modelled from the specification
and carry a doc comment saying so.
-/

namespace Uv

/-- A parsed URL: scheme, optional userinfo (credentials), host, path, and
optional query/fragment components. -/
structure Url where
  scheme : String
  userinfo : Option (String × Option String)
  host : String
  urlPath : String
  query : Option String
  fragment : Option String
  deriving DecidableEq, Repr

/-- Credentials extracted from a URL: a username and an optional password,
mirroring `uv_auth::Credentials`. -/
abbrev Credentials := String × Option String

/-- Mirrors `Credentials::from_url`: the credentials embedded in a URL are
exactly its userinfo component. -/
def Credentials.from_url (u : Url) : Option Credentials := u.userinfo

/-- Mirrors `pypi_types::redact_git_credentials`: drop the userinfo component,
leaving every other component intact. -/
def redact_git_credentials (u : Url) : Url := { u with userinfo := none }

/-- A normalized repository URL, mirroring `cache_key::RepositoryUrl`:
scheme, host and path with userinfo, query and fragment stripped. -/
structure RepositoryUrl where
  scheme : String
  host : String
  urlPath : String
  deriving DecidableEq, Repr

/-- Mirrors `RepositoryUrl::new`: normalize a URL by keeping only its scheme,
host and path. -/
def RepositoryUrl.new (u : Url) : RepositoryUrl :=
  ⟨u.scheme, u.host, u.urlPath⟩

/-- The process-wide credential store (`GIT_STORE` / the `uv_auth` cache):
an association list from normalized repository URLs to credentials; the most
recent insertion for a key shadows older ones. -/
abbrev CredStore := List (RepositoryUrl × Credentials)

/-- Insert an entry into the credential store, shadowing any previous entry
for the same key. -/
def CredStore.insert (store : CredStore) (key : RepositoryUrl)
    (creds : Credentials) : CredStore :=
  (key, creds) :: store

/-- Look up the credentials stored for a normalized repository URL. -/
def CredStore.lookup (store : CredStore) (key : RepositoryUrl) :
    Option Credentials :=
  match store with
  | [] => none
  | (k, c) :: rest => if k = key then some c else CredStore.lookup rest key

/-- The structured origin of a dependency, mirroring the `Source` enum of
`uv_workspace::pyproject` (git / path / workspace / direct URL; a plain
registry dependency records no structured source at all). -/
inductive Source where
  | git (git : Url) (subdirectory : Option String) (rev tag branch : Option String)
  | path (p : List String) (editable : Option Bool)
  | workspace
  | url (u : Url) (subdirectory : Option String)
  deriving DecidableEq, Repr

/-- Classification errors of `Source::from_requirement`, mirroring
`SourceError`: an unresolvable Git reference, or any other malformed
locator. -/
inductive SourceError where
  | unresolvedReference (rev : String)
  | other
  deriving DecidableEq, Repr

/-- The locator carried by a parsed requirement before classification,
mirroring `RequirementSource`: a bare registry specifier, a Git URL with an
optional reference already pinned in the locator, a local path, or a direct
URL. -/
inductive ReqSource where
  | registry (specifier : String)
  | git (url : Url) (subdirectory : Option String) (pinned : Option String)
  | dirPath (p : List String) (isDirectory : Bool)
  | directUrl (url : Url) (subdirectory : Option String)
  deriving DecidableEq, Repr

/-- One atom of a marker expression in disjunctive normal form: either an
`extra == NAME` predicate (`MarkerExpression::Extra`) or any other
environment condition, carried opaquely. -/
inductive MarkerAtom where
  | extra (name : String)
  | other (cond : String)
  deriving DecidableEq, Repr

/-- A marker expression, represented by its disjunctive normal form (what
`marker.to_dnf()` returns): a disjunction of conjunctions of atoms. -/
abbrev Marker := List (List MarkerAtom)

/-- A parsed requirement as produced by the resolvers: a package name,
extras, a source locator, and a marker. -/
structure Requirement where
  name : String
  extras : List String
  source : ReqSource
  marker : Marker
  deriving DecidableEq

/-- The verbatim locator a requirement's source would carry in its PEP 508
rendering: the URL of a Git or direct-URL source, the path of a path source,
and nothing for a registry source. -/
def ReqSource.locator : ReqSource → Option String
  | .registry _ => none
  | .git url _ _ => some (url.scheme ++ "://" ++ url.host ++ url.urlPath)
  | .dirPath p _ => some (String.intercalate "/" p)
  | .directUrl url _ => some (url.scheme ++ "://" ++ url.host ++ url.urlPath)

/-- A PEP 508 requirement (`pep508_rs::Requirement`) as persisted into a
manifest entry: name, extras, an optional inline URL/path, and a marker. -/
structure Pep508Requirement where
  name : String
  extras : List String
  url : Option String
  marker : Marker
  deriving DecidableEq

/-- Mirrors `pep508_rs::Requirement::from(req)`: the conversion keeps the
name, extras and marker and renders the source locator as the inline URL. -/
def Pep508Requirement.from_requirement (req : Requirement) : Pep508Requirement :=
  ⟨req.name, req.extras, req.source.locator, req.marker⟩

/-- Mirrors `Requirement::clear_url`: drop the inline URL/path from a PEP 508
requirement. -/
def Pep508Requirement.clear_url (r : Pep508Requirement) : Pep508Requirement :=
  { r with url := none }

/-- Modelled from the spec: `Source::from_requirement` lives in
`uv_distribution::pyproject`, outside the surveyed sources. Per the
specification of the Source Classifier (§4.1): a bare name+specifier maps to
the registry (no structured source); a workspace member maps to
`Workspace`; a VCS URL admits at most one of `rev`/`tag`/`branch`, uses the
reference pinned in the locator when no flag is given, and fails with
`SourceError::UnresolvedReference` when there is neither a pin nor a flag;
a plain path or URL maps to `Path` (editable defaulting to true for local
directories) or `Url`. -/
def Source.from_requirement (source : ReqSource) (workspace : Bool)
    (editable : Option Bool) (rev tag branch : Option String) :
    Except SourceError (Option Source) :=
  match source with
  | ReqSource.registry _ => .ok none
  | ReqSource.git u sub pinned =>
    if workspace then .ok (some Source.workspace)
    else
      match rev, tag, branch with
      | some r, none, none => .ok (some (Source.git u sub (some r) none none))
      | none, some t, none => .ok (some (Source.git u sub none (some t) none))
      | none, none, some b => .ok (some (Source.git u sub none none (some b)))
      | none, none, none =>
        match pinned with
        | some r => .ok (some (Source.git u sub (some r) none none))
        | none =>
          .error (.unresolvedReference
            (u.scheme ++ "://" ++ u.host ++ u.urlPath))
      | _, _, _ => .error .other
  | ReqSource.dirPath p isDirectory =>
    if workspace then .ok (some Source.workspace)
    else .ok (some (Source.path p (some (editable.getD isDirectory))))
  | ReqSource.directUrl u sub =>
    if workspace then .ok (some Source.workspace)
    else .ok (some (Source.url u sub))

/-- The fatal error message produced by `add` for an unresolved Git
reference (add.rs, the `SourceError::UnresolvedReference` arm). -/
def unresolvedReferenceMessage (rev name : String) : String :=
  "Cannot resolve Git reference `" ++ rev ++ "` for requirement `" ++ name ++
    "`. Specify the reference with one of `--tag`, `--branch`, or `--rev`, " ++
    "or use the `--raw-sources` flag."

/-- The classification step of `add` (add.rs): run
`Source::from_requirement` and surface an unresolved Git reference as a
fatal error message naming the requirement and the remediation flags; any
other classification error propagates as-is. -/
def surfaceSource (name : String) (result : Except SourceError (Option Source)) :
    Except String (Option Source) :=
  match result with
  | .ok source => .ok source
  | .error (.unresolvedReference rev) =>
    .error (unresolvedReferenceMessage rev name)
  | .error .other => .error "source error"

/-- Modelled from the spec: `store_credentials_from_url` (uv_auth) performs
the priming step for index URLs supplied via configuration (§4.2): when the
URL embeds credentials, they are inserted into the process-wide store keyed
by the normalized URL. -/
def store_credentials_from_url (store : CredStore) (u : Url) : CredStore :=
  match Credentials.from_url u with
  | some credentials => store.insert (RepositoryUrl.new u) credentials
  | none => store

/-- The `for url in settings.index_locations.urls()` loop of `init_project`
(init.rs): prime every configured index URL into the credential store. -/
def primeIndexUrls (store : CredStore) (urls : List Url) : CredStore :=
  urls.foldl store_credentials_from_url store

/-- The credential-redaction step of `init_project` (init.rs): for a Git
source, extract any credentials embedded in its URL, cache them in the
process-wide store keyed by the normalized repository URL, and redact the
URL that is kept in the source; every other source passes through
untouched. -/
def redactGitSource (store : CredStore) (source : Option Source) :
    CredStore × Option Source :=
  match source with
  | some (Source.git g sub rev tag branch) =>
    match Credentials.from_url g with
    | some credentials =>
      (store.insert (RepositoryUrl.new g) credentials,
        some (Source.git (redact_git_credentials g) sub rev tag branch))
    | none => (store, some (Source.git g sub rev tag branch))
  | other => (store, other)

/-- Consecutive deduplication, mirroring `Vec::dedup`: collapse runs of
equal adjacent elements. -/
def dedupConsecutive {α : Type _} [DecidableEq α] : List α → List α
  | [] => []
  | [a] => [a]
  | a :: b :: rest =>
    if a = b then dedupConsecutive (b :: rest)
    else a :: dedupConsecutive (b :: rest)

/-- The extras merge of `add` (add.rs): `extend` the requirement's extras
with the CLI-supplied extras, `sort_unstable`, then `dedup`. Stated over any
linearly ordered name type; the unstable sort is embedded as insertion sort,
with which it agrees elementwise on a linear order. -/
def mergeExtras {α : Type _} [LinearOrder α] (reqExtras cliExtras : List α) :
    List α :=
  dedupConsecutive ((reqExtras ++ cliExtras).insertionSort (· ≤ ·))

/-- The manifest (or PEP 723 script) being edited, mirroring `TomlVariant`:
a script's embedded metadata block, or a project whose previously loaded
`pyproject.toml` content is carried alongside. -/
inductive TomlVariant where
  | script (contents : String)
  | project (original : String)
  deriving DecidableEq, Repr

/-- The per-requirement body of the edit loop in `add` (add.rs): merge the
CLI extras into the requirement, then split on the manifest kind — a script
or raw-sources mode keeps the PEP 508 requirement (inline URL included) with
no structured source, while a project classifies the source, surfaces
classification errors, and strips the URL from the persisted PEP 508
requirement. -/
def addRequirementStep (toml : TomlVariant) (rawSources workspace : Bool)
    (editable : Option Bool) (rev tag branch : Option String)
    (cliExtras : List String) (req : Requirement) :
    Except String (Pep508Requirement × Option Source) :=
  let req : Requirement := { req with extras := mergeExtras req.extras cliExtras }
  match toml with
  | TomlVariant.script _ => .ok (Pep508Requirement.from_requirement req, none)
  | TomlVariant.project _ =>
    if rawSources then .ok (Pep508Requirement.from_requirement req, none)
    else
      match surfaceSource req.name
          (Source.from_requirement req.source workspace editable rev tag branch) with
      | .error e => .error e
      | .ok source =>
        .ok ((Pep508Requirement.from_requirement req).clear_url, source)

/-- Which manifest table an edit targets, mirroring `DependencyType`. -/
inductive DependencyType where
  | production
  | dev
  | optional (group : String)
  deriving DecidableEq, Repr

/-- A recorded manifest edit, mirroring the `DependencyEdit` values built in
`init_project` (init.rs): the dependency type, the requirement as persisted,
and its structured source, if any. -/
structure DependencyEdit where
  dependency_type : DependencyType
  requirement : Requirement
  source : Option Source
  deriving DecidableEq

/-- Command exit status, mirroring `ExitStatus`. -/
inductive ExitStatus where
  | success
  | failure
  deriving DecidableEq, Repr

/-- A filesystem / collaborator effect of the orchestration flows: a write
of the project manifest with the given rendered content, a write of the
workspace-root manifest with the given members list, or execution of the
external lock / sync stages. -/
inductive FsEffect where
  | writeManifest (content : String)
  | writeRootManifest (members : List (List String))
  | lockStage
  | syncStage
  deriving DecidableEq, Repr

/-- The manifest content on disk after a list of effects has run, starting
from the given content: each manifest write replaces the content, every
other effect leaves it alone. -/
def applyManifest (content : String) : List FsEffect → String
  | [] => content
  | FsEffect.writeManifest c :: rest => applyManifest c rest
  | _ :: rest => applyManifest content rest

/-- The tail of `add` (add.rs): for a script, the rendered edits are only
debug-printed — nothing is written, locked or synced, and the command
succeeds; for a project, the manifest is written unconditionally, then the
external lock and sync collaborators run in order, each aborting the flow on
failure (with no rollback effect for the manifest already written). The
outcomes of `do_lock` and `do_sync` are passed in as parameters. -/
def add_finish (toml : TomlVariant) (rendered : String)
    (lockResult syncResult : Except String Unit) :
    Except String ExitStatus × List FsEffect :=
  match toml with
  | TomlVariant.script _ => (.ok ExitStatus.success, [])
  | TomlVariant.project _ =>
    match lockResult with
    | .error e => (.error e, [FsEffect.writeManifest rendered])
    | .ok () =>
      match syncResult with
      | .error e =>
        (.error e, [FsEffect.writeManifest rendered, FsEffect.lockStage])
      | .ok () =>
        (.ok ExitStatus.success,
          [FsEffect.writeManifest rendered, FsEffect.lockStage,
            FsEffect.syncStage])

/-- Modelled from the spec: `process_project_and_sync` is defined in the full
repository's add.rs but absent from the surveyed sources. Per §4.6 and §7,
the lock and sync stages run only when the manifest was modified (the
idempotence short-circuit) and are skipped under `--no-sync`. -/
def process_project_and_sync (no_sync modified : Bool) : List FsEffect :=
  if modified then
    if no_sync then [] else [FsEffect.lockStage, FsEffect.syncStage]
  else []

/-- The tail of the `--from-project` import flow of `init_project`
(init.rs): compare the rendered manifest byte-for-byte against the
previously loaded content; when identical, skip the write and record
`modified = false`, otherwise write the render; then hand `modified` to
`process_project_and_sync`. Returns the `modified` flag and the effects. -/
def init_import_finish (original rendered : String) (no_sync : Bool) :
    Bool × List FsEffect :=
  if rendered = original then
    (false, process_project_and_sync no_sync false)
  else
    (true,
      FsEffect.writeManifest rendered :: process_project_and_sync no_sync true)

/-- The extras extraction of the import loop in `init_project` (init.rs):
collect the names of every `extra == NAME` atom across the disjunctive
normal form of the requirement's marker. -/
def extractExtras (marker : Marker) : List String :=
  marker.flatten.filterMap fun atom =>
    match atom with
    | MarkerAtom.extra n => some n
    | MarkerAtom.other _ => none

/-- Modelled from the spec: `marker.simplify_extras(extras)` (pep508_rs)
removes the `extra == X` predicate atoms for the given extras from the
marker while preserving the remaining marker conditions (§4.4, §9). -/
def simplify_extras (marker : Marker) (extras : List String) : Marker :=
  marker.map fun conj =>
    conj.filter fun atom =>
      match atom with
      | MarkerAtom.extra n => decide (n ∉ extras)
      | MarkerAtom.other _ => true

/-- Modelled from the spec: `resolve_requirement` is defined in the full
repository's add.rs but absent from the surveyed sources; it classifies the
requirement's source via `Source::from_requirement` with the given flags and
returns the requirement paired with the classified source. -/
def resolve_requirement (req : Requirement) (workspace : Bool)
    (editable : Option Bool) (rev tag branch : Option String) :
    Except SourceError (Requirement × Option Source) :=
  match Source.from_requirement req.source workspace editable rev tag branch with
  | .error e => .error e
  | .ok source => .ok (req, source)

/-- The per-requirement body of the import loop in `init_project` (init.rs):
extract the extras implied by the marker, classify the source (with no
reference flags), remove the extracted extra atoms from the marker while
preserving the remaining conditions, redact and cache any Git credentials,
and record one production edit when no extras were extracted or one
optional-dependency edit per extracted extra otherwise. -/
def importRequirement (store : CredStore) (workspace : Bool)
    (req : Requirement) :
    Except SourceError (CredStore × List DependencyEdit) :=
  let extras := extractExtras req.marker
  match resolve_requirement req workspace none none none none with
  | .error e => .error e
  | .ok (req, source) =>
    let req : Requirement := { req with marker := simplify_extras req.marker extras }
    let (store, source) := redactGitSource store source
    if extras.isEmpty then
      .ok (store, [⟨DependencyType.production, req, source⟩])
    else
      .ok (store,
        extras.map fun extra => ⟨DependencyType.optional extra, req, source⟩)

/-- The import loop of `init_project` (init.rs) over the whole requirement
list produced by the source-tree resolver, threading the credential store
and concatenating the accumulated edits; the first classification error
fails the whole batch. `workspacePackages` tells whether a package name is a
member of the discovered workspace. -/
def importRequirementList (workspacePackages : String → Bool) :
    CredStore → List Requirement →
    Except SourceError (CredStore × List DependencyEdit)
  | store, [] => .ok (store, [])
  | store, req :: rest =>
    match importRequirement store (workspacePackages req.name) req with
    | .error e => .error e
    | .ok (store, edits) =>
      match importRequirementList workspacePackages store rest with
      | .error e => .error e
      | .ok (store, restEdits) => .ok (store, edits ++ restEdits)

/-- The parent workspace discovered by `init_project`, as the import flow
sees it: its install path, the current members list of its root manifest,
and the include/exclude tests its member rules induce (the external
`Workspace::includes` / `Workspace::excludes`). Paths are lists of
components. -/
structure WorkspaceModel where
  install_path : List String
  members : List (List String)
  excluded : List String → Bool
  included : List String → Bool

/-- Mirrors `Path::strip_prefix`: remove the given base prefix from a path,
failing when the base is not a prefix. -/
def stripPrefixPath : List String → List String → Option (List String)
  | p, [] => some p
  | [], _ :: _ => none
  | a :: p, b :: q => if a = b then stripPrefixPath p q else none

/-- Modelled from the spec: `PyProjectTomlMut::add_workspace` appends the
given relative path to the root manifest's `tool.uv.workspace.members`
list (§6). -/
def add_workspace (members : List (List String)) (rel : List String) :
    List (List String) :=
  members ++ [rel]

/-- How the workspace-join step of `init_project` disposed of the new
project. -/
inductive WorkspaceJoin where
  | excludedSkip
  | includedSkip
  | added (rel : List String)
  deriving DecidableEq, Repr

/-- The workspace-join step of `init_project` (init.rs): when the discovered
parent workspace excludes the new project's path, or already includes it,
nothing is written; otherwise the path relative to the workspace root is
appended to the root manifest's members list and the root manifest is
written. -/
def workspaceJoinStep (ws : WorkspaceModel) (path : List String) :
    Except String (WorkspaceJoin × List FsEffect) :=
  if ws.excluded path then .ok (WorkspaceJoin.excludedSkip, [])
  else if ws.included path then .ok (WorkspaceJoin.includedSkip, [])
  else
    match stripPrefixPath path ws.install_path with
    | none => .error "path is not inside the workspace root"
    | some rel =>
      .ok (WorkspaceJoin.added rel,
        [FsEffect.writeRootManifest (add_workspace ws.members rel)])

/-- A requirement as parsed by `pep508_rs::Requirement::from_str` in the
tool-install flow, reduced to the component the front checks consult: the
rendered package name. -/
structure ParsedRequirement where
  name : String
  deriving DecidableEq, Repr

/-- The errors of the tool-install front checks (install.rs): a parse
failure, a `--from` requirement that conflicts with a specification of the
same package in the install request, or a `--from` requirement naming an
entirely different package. -/
inductive ToolInstallError where
  | parseFailure
  | conflictingSpecification (fromReq pkg : String)
  | packageNameMismatch (fromName pkg : String)
  deriving DecidableEq, Repr

/-- The effects of the tool-install flow on the managed environments. -/
inductive ToolEffect where
  | createEnvironment (name : String)
  | updateEnvironment
  | removeEnvironment (name : String)
  deriving DecidableEq, Repr

/-- The `--reinstall` setting consulted by the tool-install flow. -/
inductive ReinstallSetting where
  | all
  | packages (pkgs : List String)
  | noReinstall
  deriving DecidableEq, Repr

/-- The `--from` check of the tool-install flow (install.rs): when `--from`
is given and its parsed name differs from the positional package string, the
package string is parsed as a requirement and the command fails — with a
conflicting-specification error when both name the same package, and a
name-mismatch error otherwise. -/
def checkFromPackage (parse : String → Option ParsedRequirement)
    (pkg : String) (fromArg : Option String) :
    Except ToolInstallError ParsedRequirement :=
  match fromArg with
  | some fromStr =>
    match parse fromStr with
    | none => .error ToolInstallError.parseFailure
    | some from_requirement =>
      if from_requirement.name ≠ pkg then
        match parse pkg with
        | none => .error ToolInstallError.parseFailure
        | some package_requirement =>
          if from_requirement.name = package_requirement.name then
            .error (ToolInstallError.conflictingSpecification fromStr pkg)
          else
            .error (ToolInstallError.packageNameMismatch
              from_requirement.name pkg)
      else .ok from_requirement
  | none =>
    match parse pkg with
    | none => .error ToolInstallError.parseFailure
    | some r => .ok r

/-- The outcome of the tool-install flow up to environment creation. -/
inductive ToolInstallOutcome where
  | proceed (req : ParsedRequirement) (reinstallEntryPoints : Bool)
  | alreadyInstalled
  deriving DecidableEq, Repr

/-- The tool-install flow (install.rs) from the `--from` check up to and
including the creation/update of the tool environment: the `--from` check
runs first and aborts with no effect on failure; an existing receipt with no
`--force` and `Reinstall::None` returns early (failure status, no effect);
otherwise the environment is created and the requirements installed into
it. -/
def toolInstallUpToEnv (parse : String → Option ParsedRequirement)
    (pkg : String) (fromArg : Option String) (force : Bool)
    (reinstall : ReinstallSetting) (existingReceipt : Bool) :
    Except ToolInstallError ToolInstallOutcome × List ToolEffect :=
  match checkFromPackage parse pkg fromArg with
  | .error e => (.error e, [])
  | .ok fromReq =>
    let decision : Option Bool :=
      if existingReceipt then
        if force then some true
        else
          match reinstall with
          | ReinstallSetting.all => some true
          | ReinstallSetting.packages pkgs => some (pkgs.contains fromReq.name)
          | ReinstallSetting.noReinstall => none
      else some false
    match decision with
    | none => (.ok ToolInstallOutcome.alreadyInstalled, [])
    | some r =>
      (.ok (ToolInstallOutcome.proceed fromReq r),
        [ToolEffect.createEnvironment fromReq.name, ToolEffect.updateEnvironment])

/-! ## Lemmas about consecutive deduplication -/

theorem mem_dedupConsecutive {α : Type _} [DecidableEq α] :
    ∀ (l : List α) (x : α), x ∈ dedupConsecutive l ↔ x ∈ l
  | [], x => by simp [dedupConsecutive]
  | [a], x => by simp [dedupConsecutive]
  | a :: b :: rest, x => by
    by_cases hab : a = b
    · subst hab
      rw [dedupConsecutive, if_pos rfl, mem_dedupConsecutive (a :: rest) x]
      simp
    · rw [dedupConsecutive, if_neg hab]
      simp [mem_dedupConsecutive (b :: rest) x]

theorem sorted_lt_dedupConsecutive {α : Type _} [LinearOrder α] :
    ∀ (l : List α), l.Sorted (· ≤ ·) →
      (dedupConsecutive l).Sorted (· < ·)
  | [], _ => by simp [dedupConsecutive]
  | [a], _ => by simp [dedupConsecutive]
  | a :: b :: rest, h => by
    have htail : (b :: rest).Sorted (· ≤ ·) := (List.sorted_cons.mp h).2
    by_cases hab : a = b
    · simpa [dedupConsecutive, hab] using
        sorted_lt_dedupConsecutive (b :: rest) htail
    · have hab' : a < b :=
        lt_of_le_of_ne ((List.sorted_cons.mp h).1 b (by simp)) hab
      have hmem : ∀ x ∈ dedupConsecutive (b :: rest), a < x := by
        intro x hx
        have hx' : x ∈ b :: rest := (mem_dedupConsecutive _ _).mp hx
        rcases List.mem_cons.mp hx' with rfl | hx''
        · exact hab'
        · exact lt_of_lt_of_le hab' ((List.sorted_cons.mp htail).1 x hx'')
      rw [dedupConsecutive, if_neg hab]
      exact List.sorted_cons.mpr
        ⟨hmem, sorted_lt_dedupConsecutive (b :: rest) htail⟩

/-- C7: for every requirement processed by `add`, the CLI-supplied extras are
merged into the requirement's extras as a union, and the resulting extras
list is sorted and deduplicated before the requirement is inserted into the
manifest — even if the requirement already names one of the supplied
extras. -/
theorem add_extras_merged_sorted_dedup :
    (∀ {α : Type} [LinearOrder α] (reqExtras cliExtras : List α),
      (mergeExtras reqExtras cliExtras).Sorted (· ≤ ·) ∧
      (mergeExtras reqExtras cliExtras).Nodup ∧
      ∀ x, x ∈ mergeExtras reqExtras cliExtras ↔
        x ∈ reqExtras ∨ x ∈ cliExtras) ∧
    (∀ (toml : TomlVariant) (rawSources workspace : Bool)
      (editable : Option Bool) (rev tag branch : Option String)
      (cliExtras : List String) (req : Requirement)
      (out : Pep508Requirement × Option Source),
      addRequirementStep toml rawSources workspace editable rev tag branch
          cliExtras req = .ok out →
      out.1.extras = mergeExtras req.extras cliExtras) := by
  constructor
  · intro α _ reqExtras cliExtras
    have hsorted :
        ((reqExtras ++ cliExtras).insertionSort (· ≤ ·)).Sorted (· ≤ ·) :=
      List.sorted_insertionSort _ _
    have hlt := sorted_lt_dedupConsecutive _ hsorted
    refine ⟨hlt.imp le_of_lt, hlt.nodup, ?_⟩
    intro x
    rw [mergeExtras, mem_dedupConsecutive,
      (List.perm_insertionSort (· ≤ ·) (reqExtras ++ cliExtras)).mem_iff,
      List.mem_append]
  · intro toml rawSources workspace editable rev tag branch cliExtras req out h
    cases toml with
    | script contents =>
      simp only [addRequirementStep, Except.ok.injEq] at h
      subst h
      rfl
    | project original =>
      simp only [addRequirementStep] at h
      by_cases hraw : rawSources
      · rw [if_pos hraw] at h
        cases h
        rfl
      · rw [if_neg hraw] at h
        cases hsrc : surfaceSource
            ({ req with extras := mergeExtras req.extras cliExtras } :
              Requirement).name
            (Source.from_requirement req.source workspace editable rev tag
              branch) with
        | error e => rw [hsrc] at h; cases h
        | ok source => rw [hsrc] at h; cases h; rfl

theorem add_extras_merged_sorted_dedup_witness :
    (mergeExtras [(2 : Nat), 1, 2] [1, 3]).Sorted (· ≤ ·) ∧
    (Pep508Requirement.mk "pkg" ["x"] none ([] : Marker),
        (none : Option Source)).1.extras = mergeExtras ["x"] [] :=
  ⟨(add_extras_merged_sorted_dedup.1 [(2 : Nat), 1, 2] [1, 3]).1,
    add_extras_merged_sorted_dedup.2 (TomlVariant.script "s") false false
      none none none none []
      ⟨"pkg", ["x"], ReqSource.registry "", ([] : Marker)⟩
      (Pep508Requirement.mk "pkg" ["x"] none ([] : Marker), none) rfl⟩

/-- C10: when `add` targets a PEP 723 script, the accumulated edits are
never written back to the script, no lock and no sync are performed, and
the command still returns success — the effect list is empty, so the script
(and every other file) on disk is unchanged. -/
theorem add_script_no_write_no_lock_no_sync
    (contents rendered : String) (lockResult syncResult : Except String Unit) :
    add_finish (TomlVariant.script contents) rendered lockResult syncResult =
      (.ok ExitStatus.success, []) ∧
    applyManifest contents
      (add_finish (TomlVariant.script contents) rendered lockResult
        syncResult).2 = contents :=
  ⟨rfl, rfl⟩

/-- C6: in the `add` flow, if the lock or the sync stage fails after the
manifest has been written, the remaining stages are aborted but the written
manifest is not rolled back: the manifest on disk retains the rendered
edits when the command terminates with the lock/sync error, and the sync
stage never completes. -/
theorem add_lock_sync_failure_keeps_manifest
    (original rendered e : String) (lockResult syncResult : Except String Unit)
    (h : lockResult = .error e ∨
      (lockResult = .ok () ∧ syncResult = .error e)) :
    (add_finish (TomlVariant.project original) rendered lockResult
        syncResult).1 = .error e ∧
    applyManifest original
      (add_finish (TomlVariant.project original) rendered lockResult
        syncResult).2 = rendered ∧
    FsEffect.syncStage ∉
      (add_finish (TomlVariant.project original) rendered lockResult
        syncResult).2 := by
  rcases h with h | ⟨h₁, h₂⟩
  · subst h
    refine ⟨rfl, rfl, ?_⟩
    simp [add_finish, applyManifest]
  · subst h₁
    subst h₂
    refine ⟨rfl, rfl, ?_⟩
    simp [add_finish, applyManifest]

theorem add_lock_sync_failure_keeps_manifest_witness :
    (add_finish (TomlVariant.project "original") "rendered"
        (.error "lock failed") (.ok ())).1 = .error "lock failed" ∧
    applyManifest "original"
      (add_finish (TomlVariant.project "original") "rendered"
        (.error "lock failed") (.ok ())).2 = "rendered" ∧
    FsEffect.syncStage ∉
      (add_finish (TomlVariant.project "original") "rendered"
        (.error "lock failed") (.ok ())).2 :=
  add_lock_sync_failure_keeps_manifest "original" "rendered" "lock failed"
    (.error "lock failed") (.ok ()) (Or.inl rfl)

/-- C1 (counterexample): the `add` flow accumulates manifest edits, yet at a
render that is byte-identical to the previously loaded content it still
writes the manifest and runs the lock and sync stages — the claimed
comparison and skip do not happen in the `add` flow. -/
theorem manifest_noop_skip_counterexample :
    FsEffect.writeManifest "m" ∈
      (add_finish (TomlVariant.project "m") "m" (.ok ()) (.ok ())).2 ∧
    FsEffect.lockStage ∈
      (add_finish (TomlVariant.project "m") "m" (.ok ()) (.ok ())).2 ∧
    FsEffect.syncStage ∈
      (add_finish (TomlVariant.project "m") "m" (.ok ()) (.ok ())).2 := by
  refine ⟨?_, ?_, ?_⟩ <;> simp [add_finish]

/-- C1 (amended): in the `init --from-project` flow, after all edits are
accumulated the rendered manifest text is compared byte-for-byte against
the previously loaded content, and when the render is byte-identical no
manifest write occurs, `modified` is false, and the lock and sync stages
are skipped; the `add` flow writes and runs lock/sync unconditionally. -/
theorem init_import_noop_skips_write_lock_sync
    (original rendered : String) (no_sync : Bool)
    (h : rendered = original) :
    init_import_finish original rendered no_sync = (false, []) := by
  simp [init_import_finish, h, process_project_and_sync]

theorem init_import_noop_skips_write_lock_sync_witness :
    init_import_finish "m" "m" false = (false, []) :=
  init_import_noop_skips_write_lock_sync "m" "m" false rfl

/-- A string mentions another when the latter occurs contiguously inside
the former. -/
def mentions (msg sub : String) : Prop :=
  ∃ l r : List Char, msg.data = l ++ sub.data ++ r

/-- C2: a Git requirement whose locator pins no reference and for which none
of the rev/tag/branch flags is supplied classifies with an
unresolved-reference error — never a silently chosen default branch — and
`add` surfaces it as a fatal error whose message names the offending
requirement and the remediation flags `--tag`, `--branch`, `--rev` and
`--raw-sources`. -/
theorem git_unresolved_reference_fatal
    (u : Url) (subdir : Option String) (editable : Option Bool)
    (name : String) :
    Source.from_requirement (ReqSource.git u subdir none) false editable
        none none none =
      .error (.unresolvedReference
        (u.scheme ++ "://" ++ u.host ++ u.urlPath)) ∧
    ∃ msg,
      surfaceSource name
          (Source.from_requirement (ReqSource.git u subdir none) false
            editable none none none) = .error msg ∧
      mentions msg name ∧ mentions msg "--tag" ∧ mentions msg "--branch" ∧
      mentions msg "--rev" ∧ mentions msg "--raw-sources" := by
  refine ⟨rfl,
    unresolvedReferenceMessage (u.scheme ++ "://" ++ u.host ++ u.urlPath) name,
    rfl, ?_, ?_, ?_, ?_, ?_⟩
  · exact ⟨("Cannot resolve Git reference `").data ++
        (u.scheme ++ "://" ++ u.host ++ u.urlPath).data ++
        ("` for requirement `").data,
      ("`. Specify the reference with one of `--tag`, `--branch`, " ++
        "or `--rev`, or use the `--raw-sources` flag.").data,
      by simp [unresolvedReferenceMessage, String.data_append,
        List.append_assoc]⟩
  · exact ⟨("Cannot resolve Git reference `").data ++
        (u.scheme ++ "://" ++ u.host ++ u.urlPath).data ++
        ("` for requirement `").data ++ name.data ++
        ("`. Specify the reference with one of `").data,
      ("`, `--branch`, or `--rev`, or use the `--raw-sources` flag.").data,
      by simp [unresolvedReferenceMessage, String.data_append,
        List.append_assoc]⟩
  · exact ⟨("Cannot resolve Git reference `").data ++
        (u.scheme ++ "://" ++ u.host ++ u.urlPath).data ++
        ("` for requirement `").data ++ name.data ++
        ("`. Specify the reference with one of `--tag`, `").data,
      ("`, or `--rev`, or use the `--raw-sources` flag.").data,
      by simp [unresolvedReferenceMessage, String.data_append,
        List.append_assoc]⟩
  · exact ⟨("Cannot resolve Git reference `").data ++
        (u.scheme ++ "://" ++ u.host ++ u.urlPath).data ++
        ("` for requirement `").data ++ name.data ++
        ("`. Specify the reference with one of `--tag`, `--branch`, " ++
          "or `").data,
      ("`, or use the `--raw-sources` flag.").data,
      by simp [unresolvedReferenceMessage, String.data_append,
        List.append_assoc]⟩
  · exact ⟨("Cannot resolve Git reference `").data ++
        (u.scheme ++ "://" ++ u.host ++ u.urlPath).data ++
        ("` for requirement `").data ++ name.data ++
        ("`. Specify the reference with one of `--tag`, `--branch`, " ++
          "or `--rev`, or use the `").data,
      ("` flag.").data,
      by simp [unresolvedReferenceMessage, String.data_append,
        List.append_assoc]⟩

/-- C5: for every requirement added to a project, when a structured source
is recorded the persisted PEP 508 requirement is stripped of its URL/path;
in raw-sources mode classification is skipped entirely (the step succeeds
for every requirement, even one whose classification would fail), the PEP
508 requirement retains the inline URL, and no structured source entry is
written. -/
theorem add_source_url_stripping
    (original : String) (workspace : Bool) (editable : Option Bool)
    (rev tag branch : Option String) (cliExtras : List String)
    (req : Requirement) :
    (addRequirementStep (TomlVariant.project original) true workspace
        editable rev tag branch cliExtras req =
      .ok (Pep508Requirement.from_requirement
        { req with extras := mergeExtras req.extras cliExtras }, none) ∧
      (Pep508Requirement.from_requirement
        { req with extras := mergeExtras req.extras cliExtras }).url =
        req.source.locator) ∧
    (∀ out,
      addRequirementStep (TomlVariant.project original) false workspace
          editable rev tag branch cliExtras req = .ok out →
      out.1.url = none ∧
      Source.from_requirement req.source workspace editable rev tag branch =
        .ok out.2) := by
  refine ⟨⟨rfl, rfl⟩, ?_⟩
  intro out h
  cases hsrc : Source.from_requirement req.source workspace editable rev tag
      branch with
  | error e =>
    cases e <;> simp [addRequirementStep, surfaceSource, hsrc] at h
  | ok source =>
    simp [addRequirementStep, surfaceSource, hsrc] at h
    subst h
    exact ⟨rfl, rfl⟩

theorem add_source_url_stripping_witness :
    (Pep508Requirement.mk "pkg" [] none ([] : Marker),
        (none : Option Source)).1.url = none ∧
    Source.from_requirement (ReqSource.registry "") false none none none
        none =
      .ok (Pep508Requirement.mk "pkg" [] none ([] : Marker),
        (none : Option Source)).2 :=
  (add_source_url_stripping "o" false none none none none []
      ⟨"pkg", [], ReqSource.registry "", ([] : Marker)⟩).2
    (Pep508Requirement.mk "pkg" [] none ([] : Marker), none) rfl

/-! ## Lemmas about the credential store -/

theorem CredStore.lookup_cons (k' : RepositoryUrl) (c : Credentials)
    (store : CredStore) (k : RepositoryUrl) :
    CredStore.lookup ((k', c) :: store) k =
      if k' = k then some c else store.lookup k := rfl

theorem CredStore.lookup_insert_self (store : CredStore) (k : RepositoryUrl)
    (c : Credentials) : (store.insert k c).lookup k = some c := by
  simp [CredStore.insert, CredStore.lookup_cons]

theorem lookup_store_credentials_isSome (store : CredStore) (u : Url)
    (k : RepositoryUrl) (h : (store.lookup k).isSome) :
    ((store_credentials_from_url store u).lookup k).isSome := by
  unfold store_credentials_from_url
  cases hc : Credentials.from_url u with
  | none => exact h
  | some c =>
    unfold CredStore.insert
    rw [CredStore.lookup_cons]
    by_cases hk : RepositoryUrl.new u = k
    · simp [hk]
    · simpa [hk] using h

theorem primeIndexUrls_preserves :
    ∀ (urls : List Url) (store : CredStore) (k : RepositoryUrl),
      (store.lookup k).isSome →
      ((primeIndexUrls store urls).lookup k).isSome
  | [], _, _, h => h
  | u :: rest, store, k, h =>
    primeIndexUrls_preserves rest _ k
      (lookup_store_credentials_isSome store u k h)

theorem primeIndexUrls_mem :
    ∀ (urls : List Url) (store : CredStore) (u : Url) (creds : Credentials),
      u ∈ urls → u.userinfo = some creds →
      ((primeIndexUrls store urls).lookup (RepositoryUrl.new u)).isSome
  | [], _, _, _, h, _ => absurd h (List.not_mem_nil _)
  | v :: rest, store, u, creds, hmem, hcred => by
    rcases List.mem_cons.mp hmem with rfl | h'
    · apply primeIndexUrls_preserves rest
      show ((store_credentials_from_url store u).lookup
        (RepositoryUrl.new u)).isSome
      unfold store_credentials_from_url
      rw [show Credentials.from_url u = some creds from hcred,
        CredStore.lookup_insert_self]
      rfl
    · exact primeIndexUrls_mem rest _ u creds h' hcred

/-- C3: for every Git source produced during the import-from-project flow
whose URL embeds credentials, the credentials are inserted into the
process-wide store keyed by the normalized repository URL and the persisted
source carries the redacted, credential-free URL; index URLs supplied via
configuration are likewise primed into the store. -/
theorem git_credentials_redacted_and_cached :
    (∀ (store : CredStore) (g : Url) (subdir : Option String)
      (rev tag branch : Option String) (creds : Credentials),
      g.userinfo = some creds →
      (redactGitSource store (some (Source.git g subdir rev tag branch))).2 =
        some (Source.git (redact_git_credentials g) subdir rev tag branch) ∧
      (redact_git_credentials g).userinfo = none ∧
      ((redactGitSource store
          (some (Source.git g subdir rev tag branch))).1).lookup
        (RepositoryUrl.new g) = some creds) ∧
    (∀ (store : CredStore) (urls : List Url) (u : Url) (creds : Credentials),
      u ∈ urls → u.userinfo = some creds →
      ∃ c, (primeIndexUrls store urls).lookup (RepositoryUrl.new u) =
        some c) := by
  constructor
  · intro store g subdir rev tag branch creds h
    have hfrom : Credentials.from_url g = some creds := h
    refine ⟨?_, rfl, ?_⟩
    · simp [redactGitSource, hfrom]
    · simp [redactGitSource, hfrom, CredStore.lookup_insert_self]
  · intro store urls u creds hmem hcred
    exact Option.isSome_iff_exists.mp
      (primeIndexUrls_mem urls store u creds hmem hcred)

theorem git_credentials_redacted_and_cached_witness :
    ((redactGitSource []
        (some (Source.git
          (Url.mk "https" (some ("user", some "pass")) "example.com"
            "/repo.git" none none) none none none none))).2 =
      some (Source.git
        (redact_git_credentials
          (Url.mk "https" (some ("user", some "pass")) "example.com"
            "/repo.git" none none)) none none none none) ∧
      (redact_git_credentials
        (Url.mk "https" (some ("user", some "pass")) "example.com"
          "/repo.git" none none)).userinfo = none ∧
      ((redactGitSource []
          (some (Source.git
            (Url.mk "https" (some ("user", some "pass")) "example.com"
              "/repo.git" none none) none none none none))).1).lookup
        (RepositoryUrl.new
          (Url.mk "https" (some ("user", some "pass")) "example.com"
            "/repo.git" none none)) = some ("user", some "pass")) ∧
    ∃ c, (primeIndexUrls []
        [Url.mk "https" (some ("user", some "pass")) "example.com"
          "/repo.git" none none]).lookup
      (RepositoryUrl.new
        (Url.mk "https" (some ("user", some "pass")) "example.com"
          "/repo.git" none none)) = some c :=
  ⟨git_credentials_redacted_and_cached.1 []
      (Url.mk "https" (some ("user", some "pass")) "example.com" "/repo.git"
        none none) none none none none ("user", some "pass") rfl,
    git_credentials_redacted_and_cached.2 []
      [Url.mk "https" (some ("user", some "pass")) "example.com" "/repo.git"
        none none]
      (Url.mk "https" (some ("user", some "pass")) "example.com" "/repo.git"
        none none) ("user", some "pass") (List.mem_singleton.mpr rfl) rfl⟩

/-! ## Lemmas about marker extras -/

theorem mem_extractExtras_of_mem {marker : Marker} {conj : List MarkerAtom}
    {n : String} (hconj : conj ∈ marker) (hatom : MarkerAtom.extra n ∈ conj) :
    n ∈ extractExtras marker := by
  unfold extractExtras
  exact List.mem_filterMap.mpr
    ⟨MarkerAtom.extra n, List.mem_flatten.mpr ⟨conj, hconj, hatom⟩, rfl⟩

theorem simplify_extractExtras_eq (marker : Marker) :
    simplify_extras marker (extractExtras marker) =
      marker.map (fun conj => conj.filter fun atom =>
        match atom with
        | MarkerAtom.extra _ => false
        | MarkerAtom.other _ => true) := by
  unfold simplify_extras
  apply List.map_congr_left
  intro conj hconj
  apply List.filter_congr
  intro atom hatom
  cases atom with
  | extra n =>
    exact decide_eq_false
      (not_not_intro (mem_extractExtras_of_mem hconj hatom))
  | other c => rfl

theorem extra_not_mem_filter {conj : List MarkerAtom} {n : String} :
    MarkerAtom.extra n ∉ conj.filter (fun atom =>
      match atom with
      | MarkerAtom.extra _ => false
      | MarkerAtom.other _ => true) := by
  intro hmem
  have hp := List.of_mem_filter hmem
  simp at hp

/-- C4: for every requirement imported from a source tree, the `extra == X`
marker atoms are extracted as extras and removed from the requirement's
marker while every remaining marker condition is preserved, and the
requirement is declared once under each extracted optional-dependency
group; a requirement with no such extras is declared as a single production
dependency. -/
theorem import_marker_extras_to_optional_groups
    (store : CredStore) (workspace : Bool) (req : Requirement)
    (store' : CredStore) (edits : List DependencyEdit)
    (h : importRequirement store workspace req = .ok (store', edits)) :
    (∀ edit ∈ edits,
      edit.requirement.marker =
        req.marker.map (fun conj => conj.filter fun atom =>
          match atom with
          | MarkerAtom.extra _ => false
          | MarkerAtom.other _ => true) ∧
      ∀ conj ∈ edit.requirement.marker, ∀ n, MarkerAtom.extra n ∉ conj) ∧
    (extractExtras req.marker = [] →
      edits.map DependencyEdit.dependency_type =
        [DependencyType.production]) ∧
    (extractExtras req.marker ≠ [] →
      edits.map DependencyEdit.dependency_type =
        (extractExtras req.marker).map DependencyType.optional) := by
  cases hres : Source.from_requirement req.source workspace none none none
      none with
  | error e =>
    simp [importRequirement, resolve_requirement, hres] at h
  | ok source =>
    simp only [importRequirement, resolve_requirement, hres] at h
    cases hred : redactGitSource store source with
    | mk store₂ source₂ =>
      simp only [hred] at h
      by_cases he : (extractExtras req.marker).isEmpty = true
      · rw [if_pos he] at h
        cases h
        refine ⟨?_, fun _ => rfl, fun hne => absurd ?_ hne⟩
        · intro edit hedit
          rcases List.mem_singleton.mp hedit with rfl
          refine ⟨simplify_extractExtras_eq req.marker, ?_⟩
          intro conj hconj n
          rw [simplify_extractExtras_eq req.marker] at hconj
          rcases List.mem_map.mp hconj with ⟨conj₀, _, rfl⟩
          exact extra_not_mem_filter
        · exact List.isEmpty_iff.mp he
      · rw [if_neg he] at h
        cases h
        refine ⟨?_, ?_, fun _ => ?_⟩
        · intro edit hedit
          rcases List.mem_map.mp hedit with ⟨extra, _, rfl⟩
          refine ⟨simplify_extractExtras_eq req.marker, ?_⟩
          intro conj hconj n
          rw [simplify_extractExtras_eq req.marker] at hconj
          rcases List.mem_map.mp hconj with ⟨conj₀, _, rfl⟩
          exact extra_not_mem_filter
        · intro hnil
          exact absurd (List.isEmpty_iff.mpr hnil) he
        · rw [List.map_map]
          rfl

theorem import_marker_extras_to_optional_groups_witness :
    ([⟨DependencyType.optional "fast",
        ⟨"pkg", [], ReqSource.registry "",
          ([[MarkerAtom.other "sys_platform == linux"]] : Marker)⟩,
        none⟩] : List DependencyEdit).map DependencyEdit.dependency_type =
      (extractExtras
        [[MarkerAtom.extra "fast",
          MarkerAtom.other "sys_platform == linux"]]).map
        DependencyType.optional :=
  (import_marker_extras_to_optional_groups [] false
      ⟨"pkg", [], ReqSource.registry "",
        [[MarkerAtom.extra "fast", MarkerAtom.other "sys_platform == linux"]]⟩
      []
      [⟨DependencyType.optional "fast",
        ⟨"pkg", [], ReqSource.registry "",
          [[MarkerAtom.other "sys_platform == linux"]]⟩, none⟩]
      rfl).2.2 (by decide)

theorem stripPrefixPath_append :
    ∀ (base rel : List String), stripPrefixPath (base ++ rel) base = some rel
  | [], rel => by simp [stripPrefixPath]
  | b :: base, rel => by
    simp [stripPrefixPath, stripPrefixPath_append base rel]

/-- C9: when a newly initialized project lies inside a discovered parent
workspace, the workspace root manifest's members list is appended with the
project's path relative to the workspace root; the addition is skipped with
no manifest write when the path is excluded by workspace rules or already
included by the workspace. -/
theorem init_workspace_member_join (ws : WorkspaceModel) (path : List String) :
    (ws.excluded path = true →
      workspaceJoinStep ws path = .ok (WorkspaceJoin.excludedSkip, [])) ∧
    (ws.excluded path = false → ws.included path = true →
      workspaceJoinStep ws path = .ok (WorkspaceJoin.includedSkip, [])) ∧
    (∀ rel, ws.excluded path = false → ws.included path = false →
      path = ws.install_path ++ rel →
      workspaceJoinStep ws path =
        .ok (WorkspaceJoin.added rel,
          [FsEffect.writeRootManifest (ws.members ++ [rel])])) := by
  refine ⟨?_, ?_, ?_⟩
  · intro hex
    simp [workspaceJoinStep, hex]
  · intro hex hinc
    simp [workspaceJoinStep, hex, hinc]
  · intro rel hex hinc hpath
    subst hpath
    simp [workspaceJoinStep, hex, hinc, stripPrefixPath_append,
      add_workspace]

theorem init_workspace_member_join_witness :
    workspaceJoinStep
        ⟨["root"], [["existing"]], fun _ => false, fun _ => false⟩
        (["root"] ++ ["proj"]) =
      .ok (WorkspaceJoin.added ["proj"],
        [FsEffect.writeRootManifest [["existing"], ["proj"]]]) :=
  (init_workspace_member_join
      ⟨["root"], [["existing"]], fun _ => false, fun _ => false⟩
      (["root"] ++ ["proj"])).2.2 ["proj"] rfl rfl rfl

/-- C8: in the tool-install flow, when the requirement given via `--from`
has a package name that differs from the positionally requested package,
the command fails before any environment is created or mutated (the effect
list is empty), reporting a conflicting specification of the same package
when the two parse to the same name and a package-name mismatch
otherwise. -/
theorem tool_install_from_conflict_before_env
    (parse : String → Option ParsedRequirement) (pkg fromStr : String)
    (fr : ParsedRequirement) (force : Bool) (reinstall : ReinstallSetting)
    (existingReceipt : Bool)
    (hparse : parse fromStr = some fr) (hne : fr.name ≠ pkg) :
    (toolInstallUpToEnv parse pkg (some fromStr) force reinstall
        existingReceipt).2 = [] ∧
    (∃ e, (toolInstallUpToEnv parse pkg (some fromStr) force reinstall
        existingReceipt).1 = .error e) ∧
    (∀ pr, parse pkg = some pr → fr.name = pr.name →
      (toolInstallUpToEnv parse pkg (some fromStr) force reinstall
          existingReceipt).1 =
        .error (ToolInstallError.conflictingSpecification fromStr pkg)) ∧
    (∀ pr, parse pkg = some pr → fr.name ≠ pr.name →
      (toolInstallUpToEnv parse pkg (some fromStr) force reinstall
          existingReceipt).1 =
        .error (ToolInstallError.packageNameMismatch fr.name pkg)) := by
  cases hp : parse pkg with
  | none =>
    have hcheck : checkFromPackage parse pkg (some fromStr) =
        .error ToolInstallError.parseFailure := by
      simp only [checkFromPackage, hparse, hp]
      rw [if_pos hne]
    have hmain : toolInstallUpToEnv parse pkg (some fromStr) force reinstall
        existingReceipt = (.error ToolInstallError.parseFailure, []) := by
      simp only [toolInstallUpToEnv, hcheck]
    refine ⟨by rw [hmain], ⟨ToolInstallError.parseFailure, by rw [hmain]⟩,
      ?_, ?_⟩
    · intro pr hpr
      cases hpr
    · intro pr hpr
      cases hpr
  | some pr₀ =>
    by_cases heq : fr.name = pr₀.name
    · have hcheck : checkFromPackage parse pkg (some fromStr) =
          .error (ToolInstallError.conflictingSpecification fromStr pkg) := by
        simp only [checkFromPackage, hparse, hp]
        rw [if_pos hne, if_pos heq]
      have hmain : toolInstallUpToEnv parse pkg (some fromStr) force reinstall
          existingReceipt =
          (.error (ToolInstallError.conflictingSpecification fromStr pkg),
            []) := by
        simp only [toolInstallUpToEnv, hcheck]
      refine ⟨by rw [hmain],
        ⟨ToolInstallError.conflictingSpecification fromStr pkg,
          by rw [hmain]⟩, ?_, ?_⟩
      · intro pr hpr _
        rw [hmain]
      · intro pr hpr hne'
        cases hpr
        exact absurd heq hne'
    · have hcheck : checkFromPackage parse pkg (some fromStr) =
          .error (ToolInstallError.packageNameMismatch fr.name pkg) := by
        simp only [checkFromPackage, hparse, hp]
        rw [if_pos hne, if_neg heq]
      have hmain : toolInstallUpToEnv parse pkg (some fromStr) force reinstall
          existingReceipt =
          (.error (ToolInstallError.packageNameMismatch fr.name pkg),
            []) := by
        simp only [toolInstallUpToEnv, hcheck]
      refine ⟨by rw [hmain],
        ⟨ToolInstallError.packageNameMismatch fr.name pkg, by rw [hmain]⟩,
        ?_, ?_⟩
      · intro pr hpr heq'
        cases hpr
        exact absurd heq' heq
      · intro pr hpr _
        rw [hmain]

theorem tool_install_from_conflict_before_env_witness :
    (toolInstallUpToEnv (fun s => some ⟨s⟩) "black" (some "flask") false
        ReinstallSetting.noReinstall false).2 = [] ∧
    (toolInstallUpToEnv (fun s => some ⟨s⟩) "black" (some "flask") false
        ReinstallSetting.noReinstall false).1 =
      .error (ToolInstallError.packageNameMismatch "flask" "black") :=
  ⟨(tool_install_from_conflict_before_env (fun s => some ⟨s⟩) "black" "flask"
      ⟨"flask"⟩ false ReinstallSetting.noReinstall false rfl
      (by decide)).1,
    (tool_install_from_conflict_before_env (fun s => some ⟨s⟩) "black" "flask"
      ⟨"flask"⟩ false ReinstallSetting.noReinstall false rfl
      (by decide)).2.2.2 ⟨"black"⟩ rfl (by decide)⟩

end Uv
